import Mathlib

/-!
# Mobile menu toggle (`scripts.js`)

A shallow embedding of the mobile-menu controller of `scripts.js` together with
the part of the browser it talks to: the element tree (for `getElementById` and
`querySelector`), the class lists of the elements, the listener registry, and
the timer queue behind `setTimeout`.

* The document is a list of nodes in tree order; each node records its nesting
  depth, so the descendants of a node are the nodes that follow it for as long
  as the depth stays larger.  An element reference (`Handle`) is the position
  of the node in that list.
* A JavaScript call is a function `Page → Outcome`: the page after the call and
  the exception thrown, if any.  Effects made before a `throw` persist, as they
  do in JavaScript.
* Time is discrete: `tick` lets one time unit pass and runs the timers that
  become due; `advance n` is `n` ticks.
-/

namespace MobileMenu

/-! ## The document -/

/-- An element of the page: local name, `id` attribute ("" when absent) and
nesting depth in the element tree. -/
structure Node where
  tag : String
  id : String
  depth : Nat
deriving DecidableEq, Repr

/-- A reference to an element: its position in tree order. -/
abbrev Handle := Nat

/-- The element tree, listed in tree (pre-)order. -/
structure Document where
  nodes : List Node
deriving DecidableEq, Repr

/-- Position of the first node satisfying `p`, counting from `i`. -/
def findFrom (p : Node → Bool) : List Node → Nat → Option Handle
  | [], _ => none
  | n :: ns, i => if p n then some i else findFrom p ns (i + 1)

/-- The call `document.getElementById(id)`: the first element in tree order
carrying that id, `none` standing for `null`. -/
def getElementById (doc : Document) (id : String) : Option Handle :=
  findFrom (fun n => n.id = id) doc.nodes 0

/-- The descendants of the element `r`, in tree order. -/
def descendants (doc : Document) (r : Handle) : List Node :=
  match doc.nodes.drop r with
  | [] => []
  | root :: rest => rest.takeWhile (fun n => root.depth < n.depth)

/-- The two selectors the script uses: a type selector (`"div"`) and an id
selector (`"#closeMobileMenu"`). -/
inductive Selector where
  | tag (name : String)
  | id (name : String)
deriving DecidableEq, Repr

/-- Whether a node matches a selector. -/
def Selector.test : Selector → Node → Bool
  | .tag name, n => n.tag = name
  | .id name, n => n.id = name

/-- The call `r.querySelector(sel)`: the first descendant of `r` in tree order
that matches, `none` standing for `null`. -/
def querySelector (doc : Document) (r : Handle) (sel : Selector) : Option Handle :=
  findFrom sel.test (descendants doc r) (r + 1)

/-- Whether `t` is a proper descendant of `r`. -/
def isDescendant (doc : Document) (t r : Handle) : Bool :=
  r < t && t ≤ r + (descendants doc r).length

/-- The ancestors of `t`, nearest first. -/
def ancestors (doc : Document) (t : Handle) : List Handle :=
  ((List.range t).filter (fun r => isDescendant doc t r)).reverse

/-! ## Closures, listeners, timers -/

/-- The variables of the `if (menuBtn && mobileMenu)` block.  `panel` and
`closeBtn` are results of `querySelector` and may be `null`. -/
structure Env where
  menuBtn : Handle
  mobileMenu : Handle
  panel : Option Handle
  closeBtn : Option Handle
deriving DecidableEq, Repr

/-- The function values of the script, each with the variables it closes
over. -/
inductive Closure where
  | onDOMContentLoaded
  | openMenu (env : Env)
  | closeMenu (env : Env)
  | containerClick (env : Env)
  | onKeydown (env : Env)
deriving DecidableEq, Repr

/-- The arrow function passed to `setTimeout` inside `closeMenu`; it closes
over `mobileMenu`. -/
inductive Callback where
  | hideContainer (mobileMenu : Handle)
deriving DecidableEq, Repr

/-- What a listener can be attached to and what an event can be aimed at. -/
inductive EventTarget where
  | document
  | element (h : Handle)
deriving DecidableEq, Repr

/-- One entry of the listener registry. -/
structure Listener where
  target : EventTarget
  type : String
  handler : Closure
deriving DecidableEq, Repr

/-- A pending timer: time units left until it is due, and its callback. -/
structure Timer where
  remaining : Nat
  callback : Callback
deriving DecidableEq, Repr

/-- An event as the listeners see it: `e.target` and `e.key`. -/
structure Event where
  type : String
  target : EventTarget
  key : String
deriving DecidableEq, Repr

/-- The page: the element tree, the class list of every element, the attached
listeners in order of attachment, and the pending timers in order of
scheduling. -/
structure Page where
  doc : Document
  classes : Handle → List String
  listeners : List Listener
  timers : List Timer

/-- A thrown JavaScript exception. -/
inductive JsError where
  | typeError
deriving DecidableEq, Repr

/-- The result of a call: the page it leaves and the exception it threw, if
any. -/
structure Outcome where
  page : Page
  error : Option JsError

/-- Normal completion. -/
def Outcome.ok (s : Page) : Outcome := ⟨s, none⟩

/-- Abrupt completion with a `TypeError` (a property read on `null`). -/
def Outcome.throw (s : Page) : Outcome := ⟨s, some .typeError⟩

/-! ## Browser primitives -/

/-- The method `DOMTokenList.add`: append the token unless it is present. -/
def tokenAdd (c : String) (l : List String) : List String :=
  if c ∈ l then l else l ++ [c]

/-- The method `DOMTokenList.remove`: drop the token. -/
def tokenRemove (c : String) (l : List String) : List String :=
  l.filter (fun x => x ≠ c)

/-- The call `h.classList.add(c)`. -/
def classListAdd (h : Handle) (c : String) (s : Page) : Page :=
  { s with classes := fun k => if k = h then tokenAdd c (s.classes k) else s.classes k }

/-- The call `h.classList.remove(c)`. -/
def classListRemove (h : Handle) (c : String) (s : Page) : Page :=
  { s with classes := fun k => if k = h then tokenRemove c (s.classes k) else s.classes k }

/-- The call `target.addEventListener(type, handler)`. -/
def addEventListener (target : EventTarget) (type : String) (handler : Closure)
    (s : Page) : Page :=
  { s with listeners := s.listeners ++ [⟨target, type, handler⟩] }

/-- The call `setTimeout(cb, delay)`. -/
def setTimeout (cb : Callback) (delay : Nat) (s : Page) : Page :=
  { s with timers := s.timers ++ [⟨delay, cb⟩] }

/-- Whether element `h` carries class `c`. -/
def hasClass (s : Page) (h : Handle) (c : String) : Prop := c ∈ s.classes h

instance (s : Page) (h : Handle) (c : String) : Decidable (hasClass s h c) :=
  inferInstanceAs (Decidable (c ∈ s.classes h))

/-! ## The script -/

/-- The function `openMenu` (lines 10-13). -/
def openMenu (env : Env) (s : Page) : Outcome :=
  let s1 := classListRemove env.mobileMenu "hidden" s
  match env.panel with
  | none => Outcome.throw s1
  | some panel => Outcome.ok (classListRemove panel "translate-x-full" s1)

/-- The function `closeMenu` (lines 15-20). -/
def closeMenu (env : Env) (s : Page) : Outcome :=
  match env.panel with
  | none => Outcome.throw s
  | some panel =>
    let s1 := classListAdd panel "translate-x-full" s
    Outcome.ok (setTimeout (.hideContainer env.mobileMenu) 300 s1)

/-- The click listener of the container (lines 24-26). -/
def containerClick (env : Env) (e : Event) (s : Page) : Outcome :=
  if e.target = .element env.mobileMenu then closeMenu env s else Outcome.ok s

/-- The keydown listener of the document (lines 28-30). -/
def onKeydown (env : Env) (e : Event) (s : Page) : Outcome :=
  if e.key = "Escape" then closeMenu env s else Outcome.ok s

/-- The `DOMContentLoaded` handler (lines 2-32). -/
def onDOMContentLoaded (s : Page) : Outcome :=
  match getElementById s.doc "mobileMenuBtn", getElementById s.doc "mobileMenuPanel" with
  | some menuBtn, some mobileMenu =>
    let panel := querySelector s.doc mobileMenu (.tag "div")
    let closeBtn := querySelector s.doc mobileMenu (.id "closeMobileMenu")
    let env : Env := ⟨menuBtn, mobileMenu, panel, closeBtn⟩
    let s1 := addEventListener (.element menuBtn) "click" (.openMenu env) s
    match closeBtn with
    | none => Outcome.throw s1
    | some closeBtn =>
      let s2 := addEventListener (.element closeBtn) "click" (.closeMenu env) s1
      let s3 := addEventListener (.element mobileMenu) "click" (.containerClick env) s2
      let s4 := addEventListener .document "keydown" (.onKeydown env) s3
      Outcome.ok s4
  | _, _ => Outcome.ok s

/-- The top level of the script (line 2): attach the `DOMContentLoaded`
handler to the document. -/
def script (s : Page) : Page :=
  addEventListener .document "DOMContentLoaded" .onDOMContentLoaded s

/-- Calling a function value with an event. -/
def Closure.call : Closure → Event → Page → Outcome
  | .onDOMContentLoaded, _, s => MobileMenu.onDOMContentLoaded s
  | .openMenu env, _, s => MobileMenu.openMenu env s
  | .closeMenu env, _, s => MobileMenu.closeMenu env s
  | .containerClick env, e, s => MobileMenu.containerClick env e s
  | .onKeydown env, e, s => MobileMenu.onKeydown env e s

/-- Running a timer callback (line 18). -/
def Callback.run : Callback → Page → Page
  | .hideContainer mobileMenu, s => classListAdd mobileMenu "hidden" s

/-! ## Event loop -/

/-- A timer one time unit later. -/
def Timer.age (t : Timer) : Timer := { t with remaining := t.remaining - 1 }

/-- Running the callbacks of the given timers, in order. -/
def runDue (due : List Timer) (s : Page) : Page :=
  due.foldl (fun acc t => t.callback.run acc) s

/-- One time unit passes: every pending timer gets one unit closer, and those
that reach zero run, in order of scheduling. -/
def tick (s : Page) : Page :=
  let aged := s.timers.map Timer.age
  let due := aged.filter (fun t => t.remaining = 0)
  let pending := aged.filter (fun t => t.remaining ≠ 0)
  runDue due { s with timers := pending }

/-- The passing of `n` time units. -/
def advance : Nat → Page → Page
  | 0, s => s
  | n + 1, s => advance n (tick s)

/-- The event targets an event aimed at `t` visits while bubbling. -/
def propagationPath (doc : Document) : EventTarget → List EventTarget
  | .document => [.document]
  | .element t => .element t :: (ancestors doc t).map .element ++ [.document]

/-- The listeners for the event attached to one target, in order of
attachment. -/
def listenersAt (s : Page) (e : Event) (tgt : EventTarget) : List Listener :=
  s.listeners.filter (fun l => l.target = tgt ∧ l.type = e.type)

/-- The listeners an event reaches, in the order they run. -/
def listenersFor (s : Page) (e : Event) : List Listener :=
  (propagationPath s.doc e.target).flatMap (listenersAt s e)

/-- Dispatch of an event: the listeners it reaches run in order; an exception
thrown by one is reported and does not stop the others.  The listeners are
those attached when the dispatch starts; no function of the script attaches a
listener for the type of event it is handling. -/
def dispatchEvent (e : Event) (s : Page) : Page × List JsError :=
  (listenersFor s e).foldl
    (fun acc l =>
      let o := l.handler.call e acc.1
      (o.page, acc.2 ++ o.error.toList))
    (s, [])

/-- A click on the element `t`. -/
def click (t : Handle) (s : Page) : Page × List JsError :=
  dispatchEvent ⟨"click", .element t, ""⟩ s

/-- A key press while the element `focus` has the focus. -/
def keydown (key : String) (focus : Handle) (s : Page) : Page × List JsError :=
  dispatchEvent ⟨"keydown", .element focus, key⟩ s

/-- A freshly parsed page with the script loaded and `DOMContentLoaded`
fired. -/
def boot (doc : Document) (classes : Handle → List String) : Page × List JsError :=
  dispatchEvent ⟨"DOMContentLoaded", .document, ""⟩ (script ⟨doc, classes, [], []⟩)

/-! ## Sample page -/

/-- A page with all four elements: trigger button, container, panel `div`
inside the container, and close button inside the panel. -/
def sampleDoc : Document :=
  ⟨[⟨"button", "mobileMenuBtn", 0⟩, ⟨"div", "mobileMenuPanel", 0⟩,
    ⟨"div", "", 1⟩, ⟨"button", "closeMobileMenu", 2⟩]⟩

/-- The class lists of the sample page as served: menu closed. -/
def sampleClasses : Handle → List String
  | 1 => ["fixed", "hidden"]
  | 2 => ["transform", "translate-x-full"]
  | _ => []

/-- The block variables the handler computes on the sample page. -/
def sampleEnv : Env := ⟨0, 1, some 2, some 3⟩

/-- The sample page before the script runs. -/
def samplePage : Page := ⟨sampleDoc, sampleClasses, [], []⟩

/-- A page whose container has a panel `div` but no close button. -/
def noCloseDoc : Document :=
  ⟨[⟨"button", "mobileMenuBtn", 0⟩, ⟨"div", "mobileMenuPanel", 0⟩, ⟨"div", "", 1⟩]⟩

/-- A page without the container. -/
def noContainerDoc : Document :=
  ⟨[⟨"button", "mobileMenuBtn", 0⟩, ⟨"div", "", 0⟩]⟩

/-- The sample page after opening, closing, waiting 200 time units and opening
again: the container is shown while the timer of the close is still pending. -/
def reopenedPage : Page :=
  (openMenu sampleEnv
    (advance 200 (closeMenu sampleEnv (openMenu sampleEnv samplePage).page).page)).page

/-- A page whose container holds the close button but no `div`. -/
def noPanelDoc : Document :=
  ⟨[⟨"button", "mobileMenuBtn", 0⟩, ⟨"nav", "mobileMenuPanel", 0⟩,
    ⟨"button", "closeMobileMenu", 1⟩]⟩

/-- The block variables the handler computes on `noPanelDoc`. -/
def noPanelEnv : Env := ⟨0, 1, none, some 2⟩

/-- The listener registry of a page on which the script was loaded and the
handler ran to the end. -/
def wired (env : Env) (closeBtn : Handle) : List Listener :=
  [⟨.document, "DOMContentLoaded", .onDOMContentLoaded⟩,
   ⟨.element env.menuBtn, "click", .openMenu env⟩,
   ⟨.element closeBtn, "click", .closeMenu env⟩,
   ⟨.element env.mobileMenu, "click", .containerClick env⟩,
   ⟨.document, "keydown", .onKeydown env⟩]

/-- The sample page once loaded. -/
def loadedPage : Page := (boot sampleDoc sampleClasses).1

/-! ## Basic facts -/

theorem mem_tokenAdd (x c : String) (l : List String) :
    x ∈ tokenAdd c l ↔ x = c ∨ x ∈ l := by
  unfold tokenAdd
  split
  · constructor
    · intro h; exact Or.inr h
    · rintro (h | h)
      · subst h; assumption
      · exact h
  · simp [or_comm]

theorem mem_tokenRemove (x c : String) (l : List String) :
    x ∈ tokenRemove c l ↔ x ∈ l ∧ x ≠ c := by
  simp [tokenRemove]

theorem hasClass_classListAdd (s : Page) (h k : Handle) (c x : String) :
    hasClass (classListAdd h c s) k x ↔ (k = h ∧ x = c) ∨ hasClass s k x := by
  unfold hasClass classListAdd
  by_cases hk : k = h <;> simp [hk, mem_tokenAdd]

theorem hasClass_classListRemove (s : Page) (h k : Handle) (c x : String) :
    hasClass (classListRemove h c s) k x ↔ hasClass s k x ∧ ¬ (k = h ∧ x = c) := by
  unfold hasClass classListRemove
  by_cases hk : k = h <;> simp [hk, mem_tokenRemove]

theorem findFrom_bounds (p : Node → Bool) (l : List Node) (i k : Nat)
    (h : findFrom p l i = some k) : i ≤ k ∧ k < i + l.length := by
  induction l generalizing i with
  | nil => simp [findFrom] at h
  | cons n ns ih =>
    unfold findFrom at h
    split at h
    · simp at h; subst h; simp
    · have := ih (i + 1) h
      simp only [List.length_cons]
      omega

theorem querySelector_isDescendant (doc : Document) (r k : Nat) (sel : Selector)
    (h : querySelector doc r sel = some k) : isDescendant doc k r = true := by
  have hb := findFrom_bounds _ _ _ _ h
  have h1 : r < k := by omega
  have h2 : k ≤ r + (descendants doc r).length := by omega
  simp [isDescendant, h1, h2]

theorem closeMenu_ne_ok (env : Env) (s : Page) : closeMenu env s ≠ Outcome.ok s := by
  intro h
  unfold closeMenu at h
  cases hp : env.panel with
  | none =>
    rw [hp] at h
    have := congrArg Outcome.error h
    simp [Outcome.throw, Outcome.ok] at this
  | some p =>
    rw [hp] at h
    have := congrArg (fun o => o.page.timers.length) h
    simp [Outcome.ok, setTimeout, classListAdd] at this

/-! ## Timers -/

theorem hasClass_run (cb : Callback) (s : Page) (k : Handle) (x : String) :
    hasClass (cb.run s) k x ↔ (x = "hidden" ∧ cb = .hideContainer k) ∨ hasClass s k x := by
  cases cb with
  | hideContainer m =>
    simp only [Callback.run, hasClass_classListAdd, Callback.hideContainer.injEq]
    constructor
    · rintro (⟨h1, h2⟩ | h)
      · exact Or.inl ⟨h2, h1.symm⟩
      · exact Or.inr h
    · rintro (⟨h1, h2⟩ | h)
      · exact Or.inl ⟨h2.symm, h1⟩
      · exact Or.inr h

theorem run_frame (cb : Callback) (s : Page) :
    (cb.run s).doc = s.doc ∧ (cb.run s).listeners = s.listeners
      ∧ (cb.run s).timers = s.timers := by
  cases cb with
  | hideContainer m => simp [Callback.run, classListAdd]

theorem runDue_frame (l : List Timer) (s : Page) :
    (runDue l s).doc = s.doc ∧ (runDue l s).listeners = s.listeners
      ∧ (runDue l s).timers = s.timers := by
  unfold runDue
  induction l generalizing s with
  | nil => simp
  | cons t ts ih =>
    simp only [List.foldl_cons]
    obtain ⟨h1, h2, h3⟩ := ih (t.callback.run s)
    obtain ⟨g1, g2, g3⟩ := run_frame t.callback s
    exact ⟨h1.trans g1, h2.trans g2, h3.trans g3⟩

theorem hasClass_runDue (l : List Timer) (s : Page) (k : Handle) (x : String) :
    hasClass (runDue l s) k x ↔
      (x = "hidden" ∧ ∃ t ∈ l, t.callback = .hideContainer k) ∨ hasClass s k x := by
  unfold runDue
  induction l generalizing s with
  | nil => simp
  | cons t ts ih =>
    simp only [List.foldl_cons, ih, hasClass_run, List.mem_cons, exists_eq_or_imp]
    constructor
    · rintro (⟨hx, u, hu, hcb⟩ | ⟨hx, hcb⟩ | h)
      · exact Or.inl ⟨hx, Or.inr ⟨u, hu, hcb⟩⟩
      · exact Or.inl ⟨hx, Or.inl hcb⟩
      · exact Or.inr h
    · rintro (⟨hx, hcb | ⟨u, hu, hcb⟩⟩ | h)
      · exact Or.inr (Or.inl ⟨hx, hcb⟩)
      · exact Or.inl ⟨hx, u, hu, hcb⟩
      · exact Or.inr (Or.inr h)

theorem tick_frame (s : Page) :
    (tick s).doc = s.doc ∧ (tick s).listeners = s.listeners := by
  unfold tick
  obtain ⟨h1, h2, _⟩ := runDue_frame
    ((s.timers.map Timer.age).filter (fun t => t.remaining = 0))
    { s with timers := (s.timers.map Timer.age).filter (fun t => t.remaining ≠ 0) }
  exact ⟨h1, h2⟩

theorem tick_timers (s : Page) :
    (tick s).timers = (s.timers.map Timer.age).filter (fun t => t.remaining ≠ 0) := by
  unfold tick
  exact (runDue_frame _ _).2.2

theorem hasClass_tick (s : Page) (k : Handle) (x : String) :
    hasClass (tick s) k x ↔
      (x = "hidden" ∧ ∃ t ∈ s.timers, t.remaining - 1 = 0 ∧ t.callback = .hideContainer k)
        ∨ hasClass s k x := by
  unfold tick
  simp only [hasClass_runDue]
  have hs : hasClass
      { s with timers := (s.timers.map Timer.age).filter (fun t => t.remaining ≠ 0) } k x ↔
      hasClass s k x := Iff.rfl
  rw [hs]
  simp only [List.mem_filter, List.mem_map, decide_eq_true_eq]
  constructor
  · rintro (⟨hx, t, ⟨⟨u, hu, rfl⟩, h0⟩, hcb⟩ | h)
    · exact Or.inl ⟨hx, u, hu, h0, hcb⟩
    · exact Or.inr h
  · rintro (⟨hx, u, hu, h0, hcb⟩ | h)
    · exact Or.inl ⟨hx, _, ⟨⟨u, hu, rfl⟩, h0⟩, hcb⟩
    · exact Or.inr h

theorem advance_frame (n : Nat) (s : Page) :
    (advance n s).doc = s.doc ∧ (advance n s).listeners = s.listeners := by
  induction n generalizing s with
  | zero => simp [advance]
  | succ n ih =>
    obtain ⟨h1, h2⟩ := ih (tick s)
    obtain ⟨g1, g2⟩ := tick_frame s
    exact ⟨h1.trans g1, h2.trans g2⟩

/-- The timers left by `n` units after one tick are those left by `n + 1`
units. -/
theorem pending_step (n : Nat) (l : List Timer) :
    (((l.map Timer.age).filter (fun t => t.remaining ≠ 0)).filter
        (fun t => n ≤ t.remaining - 1)).map
        (fun t => { t with remaining := t.remaining - n }) =
      (l.filter (fun t => n + 1 ≤ t.remaining - 1)).map
        (fun t => { t with remaining := t.remaining - (n + 1) }) := by
  induction l with
  | nil => rfl
  | cons t ts iht =>
    rw [List.map_cons]
    have ha : t.age.remaining = t.remaining - 1 := rfl
    by_cases h0 : t.remaining - 1 = 0
    · rw [List.filter_cons_of_neg (by simp only [decide_eq_true_eq, ha]; omega),
        List.filter_cons_of_neg (by simp only [decide_eq_true_eq]; omega)]
      exact iht
    · rw [List.filter_cons_of_pos (by simp only [decide_eq_true_eq, ha]; omega)]
      by_cases h2 : n + 1 ≤ t.remaining - 1
      · rw [List.filter_cons_of_pos (by simp only [decide_eq_true_eq]; omega),
          List.filter_cons_of_pos (by simp only [decide_eq_true_eq, ha]; omega),
          List.map_cons, List.map_cons, iht]
        have h4 : t.remaining - 1 - n = t.remaining - (n + 1) := by omega
        simp [Timer.age, h4]
      · rw [List.filter_cons_of_neg (by simp only [decide_eq_true_eq]; omega),
          List.filter_cons_of_neg (by simp only [decide_eq_true_eq, ha]; omega)]
        exact iht

/-- The timers still pending after `n` time units: those not yet due, each `n`
units closer. -/
theorem advance_timers (n : Nat) (s : Page) :
    (advance n s).timers =
      (s.timers.filter (fun t => n ≤ t.remaining - 1)).map
        (fun t => { t with remaining := t.remaining - n }) := by
  induction n generalizing s with
  | zero => simp [advance]
  | succ n ih =>
    rw [advance, ih, tick_timers]
    exact pending_step n s.timers

/-- The classes after `n` time units: those present before, plus `hidden` on
the containers of the timers that fell due. -/
theorem hasClass_advance (n : Nat) (s : Page) (k : Handle) (x : String) :
    hasClass (advance n s) k x ↔
      (x = "hidden" ∧ ∃ t ∈ s.timers, t.remaining - 1 < n ∧ t.callback = .hideContainer k)
        ∨ hasClass s k x := by
  induction n generalizing s with
  | zero => simp [advance]
  | succ n ih =>
    simp only [advance, ih, hasClass_tick, tick_timers, List.mem_filter, List.mem_map,
      decide_eq_true_eq]
    constructor
    · rintro (⟨hx, t, ⟨⟨u, hu, rfl⟩, h0⟩, hlt, hcb⟩ | ⟨hx, u, hu, h0, hcb⟩ | h)
      · refine Or.inl ⟨hx, u, hu, ?_, hcb⟩
        simp only [Timer.age] at hlt h0
        omega
      · exact Or.inl ⟨hx, u, hu, by omega, hcb⟩
      · exact Or.inr h
    · rintro (⟨hx, u, hu, hlt, hcb⟩ | h)
      · by_cases h0 : u.remaining - 1 = 0
        · exact Or.inr (Or.inl ⟨hx, u, hu, h0, hcb⟩)
        · refine Or.inl ⟨hx, u.age, ⟨⟨u, hu, rfl⟩, ?_⟩, ?_, hcb⟩
          · simpa [Timer.age] using h0
          · simp only [Timer.age]
            omega
      · exact Or.inr (Or.inr h)

theorem isDescendant_ne (doc : Document) (t r : Nat) (h : isDescendant doc t r = true) :
    t ≠ r := by
  intro heq
  subst heq
  simp [isDescendant] at h

theorem openMenu_page (env : Env) (s : Page) (panel : Handle)
    (hpanel : env.panel = some panel) :
    (openMenu env s).page =
      classListRemove panel "translate-x-full" (classListRemove env.mobileMenu "hidden" s) := by
  simp [openMenu, hpanel, Outcome.ok]

theorem closeMenu_page (env : Env) (s : Page) (panel : Handle)
    (hpanel : env.panel = some panel) :
    (closeMenu env s).page =
      setTimeout (.hideContainer env.mobileMenu) 300
        (classListAdd panel "translate-x-full" s) := by
  simp [closeMenu, hpanel, Outcome.ok]

theorem hasClass_setTimeout (cb : Callback) (d : Nat) (s : Page) (k : Handle) (x : String) :
    hasClass (setTimeout cb d s) k x ↔ hasClass s k x := Iff.rfl

theorem timers_setTimeout (cb : Callback) (d : Nat) (s : Page) :
    (setTimeout cb d s).timers = s.timers ++ [⟨d, cb⟩] := rfl

theorem timers_classListAdd (h : Handle) (c : String) (s : Page) :
    (classListAdd h c s).timers = s.timers := rfl

theorem timers_classListRemove (h : Handle) (c : String) (s : Page) :
    (classListRemove h c s).timers = s.timers := rfl

theorem openMenu_timers (env : Env) (s : Page) : (openMenu env s).page.timers = s.timers := by
  unfold openMenu
  cases env.panel <;> rfl

/-! ## Dispatch -/

theorem boot_eq (doc : Document) (classes : Handle → List String) :
    boot doc classes =
      ((onDOMContentLoaded (script ⟨doc, classes, [], []⟩)).page,
       (onDOMContentLoaded (script ⟨doc, classes, [], []⟩)).error.toList) := rfl

theorem flatMap_elements_nil (f : EventTarget → List Listener) (l : List Handle)
    (h : ∀ k, f (.element k) = []) : (l.map EventTarget.element).flatMap f = [] := by
  induction l with
  | nil => rfl
  | cons a as ih => simp [List.flatMap_cons, h, ih]

/-- On a wired page a keydown event reaches the listener of the document and
no other, wherever the focus is. -/
theorem listenersFor_keydown (s : Page) (env : Env) (closeBtn : Handle)
    (hl : s.listeners = wired env closeBtn) (key : String) (focus : Handle) :
    listenersFor s ⟨"keydown", .element focus, key⟩ =
      [⟨.document, "keydown", .onKeydown env⟩] := by
  have hel : ∀ k : Handle,
      listenersAt s ⟨"keydown", .element focus, key⟩ (.element k) = [] := by
    intro k
    simp [listenersAt, hl, wired]
  have hdoc : listenersAt s ⟨"keydown", .element focus, key⟩ .document =
      [⟨.document, "keydown", .onKeydown env⟩] := by
    simp [listenersAt, hl, wired]
  unfold listenersFor propagationPath
  simp only [List.flatMap_cons, List.flatMap_append, List.flatMap_nil, hel, hdoc,
    flatMap_elements_nil _ _ hel, List.nil_append, List.append_nil]

theorem keydown_wired (s : Page) (env : Env) (closeBtn : Handle)
    (hl : s.listeners = wired env closeBtn) (key : String) (focus : Handle) :
    keydown key focus s =
      ((onKeydown env ⟨"keydown", .element focus, key⟩ s).page,
       (onKeydown env ⟨"keydown", .element focus, key⟩ s).error.toList) := by
  unfold keydown dispatchEvent
  rw [listenersFor_keydown s env closeBtn hl]
  rfl

theorem mem_ancestors (doc : Document) (t r : Nat) :
    r ∈ ancestors doc t ↔ isDescendant doc t r = true := by
  simp only [ancestors, List.mem_reverse, List.mem_filter, List.mem_range]
  constructor
  · exact fun h => h.2
  · intro h
    refine ⟨?_, h⟩
    simp only [isDescendant, Bool.and_eq_true, decide_eq_true_eq] at h
    exact h.1

/-- An event aimed at `t` visits the element `r` exactly when `r` is `t` or an
ancestor of `t`. -/
theorem mem_propagationPath (doc : Document) (t r : Handle) :
    EventTarget.element r ∈ propagationPath doc (.element t) ↔
      r = t ∨ isDescendant doc t r = true := by
  simp [propagationPath, mem_ancestors]

/-- A listener runs for an event exactly when it is attached, for the type of
the event, to a target the event visits. -/
theorem mem_listenersFor (s : Page) (e : Event) (l : Listener) :
    l ∈ listenersFor s e ↔
      l ∈ s.listeners ∧ l.type = e.type ∧ l.target ∈ propagationPath s.doc e.target := by
  simp only [listenersFor, listenersAt, List.mem_flatMap, List.mem_filter,
    decide_eq_true_eq]
  constructor
  · rintro ⟨tgt, htgt, hl, rfl, hty⟩
    exact ⟨hl, hty, htgt⟩
  · rintro ⟨hl, hty, htgt⟩
    exact ⟨l.target, htgt, hl, rfl, hty⟩

theorem onDOMContentLoaded_timers (s : Page) :
    (onDOMContentLoaded s).page.timers = s.timers := by
  unfold onDOMContentLoaded
  split
  · rename_i menuBtn mobileMenu _ _
    simp only
    cases querySelector s.doc mobileMenu (.id "closeMobileMenu") <;> rfl
  · rfl

/-- No function of the script removes a pending timer: a call leaves the
timers there were and may append to them. -/
theorem call_timers (h : Closure) (e : Event) (s : Page) :
    ∃ extra, (h.call e s).page.timers = s.timers ++ extra := by
  have hclose : ∀ env : Env, ∃ extra, (closeMenu env s).page.timers = s.timers ++ extra := by
    intro env
    unfold closeMenu
    cases env.panel with
    | none => exact ⟨[], by simp [Outcome.throw]⟩
    | some p => exact ⟨[⟨300, .hideContainer env.mobileMenu⟩], rfl⟩
  cases h with
  | onDOMContentLoaded => exact ⟨[], by simp [Closure.call, onDOMContentLoaded_timers]⟩
  | openMenu env => exact ⟨[], by simp [Closure.call, openMenu_timers]⟩
  | closeMenu env => exact hclose env
  | containerClick env =>
    simp only [Closure.call, containerClick]
    split
    · exact hclose env
    · exact ⟨[], by simp [Outcome.ok]⟩
  | onKeydown env =>
    simp only [Closure.call, onKeydown]
    split
    · exact hclose env
    · exact ⟨[], by simp [Outcome.ok]⟩

/-! ## Opening -/

/-- C1: when the container carries `hidden` and the panel carries
`translate-x-full`, `openMenu` completes normally and leaves the container
without `hidden` and the panel without `translate-x-full`; it is the removal on
the container followed by the removal on the panel, and between the two the
container is already shown while the panel is still off-screen. -/
theorem C1_openMenu_reveals (env : Env) (s : Page) (panel : Handle)
    (hpanel : env.panel = some panel)
    (hhidden : hasClass s env.mobileMenu "hidden")
    (hoff : hasClass s panel "translate-x-full") :
    openMenu env s =
        Outcome.ok (classListRemove panel "translate-x-full"
          (classListRemove env.mobileMenu "hidden" s))
      ∧ ¬ hasClass (classListRemove env.mobileMenu "hidden" s) env.mobileMenu "hidden"
      ∧ hasClass (classListRemove env.mobileMenu "hidden" s) panel "translate-x-full"
      ∧ ¬ hasClass (openMenu env s).page env.mobileMenu "hidden"
      ∧ ¬ hasClass (openMenu env s).page panel "translate-x-full"
      ∧ (openMenu env s).error = none := by
  have hne : ("translate-x-full" : String) ≠ "hidden" := by decide
  have _ := hhidden
  refine ⟨?_, ?_, ?_, ?_, ?_, ?_⟩
  · simp [openMenu, hpanel]
  · simp [hasClass_classListRemove]
  · simp [hasClass_classListRemove, hoff, hne]
  · simp [openMenu, hpanel, Outcome.ok, hasClass_classListRemove]
  · simp [openMenu, hpanel, Outcome.ok, hasClass_classListRemove]
  · simp [openMenu, hpanel, Outcome.ok]

/-- C1, on the sample page as served. -/
theorem C1_openMenu_reveals_witness :
    ¬ hasClass (openMenu sampleEnv samplePage).page 1 "hidden"
      ∧ ¬ hasClass (openMenu sampleEnv samplePage).page 2 "translate-x-full" :=
  have h := C1_openMenu_reveals sampleEnv samplePage 2 rfl (by decide) (by decide)
  ⟨h.2.2.2.1, h.2.2.2.2.1⟩

/-! ## Closing and the delayed hide -/

/-- C2, as stated, fails: on the sample page, after open, close, 200 time units
and open again, the container is shown; `closeMenu` called then is followed by
a hidden container after only 100 time units, when the timer of the earlier
close runs. -/
theorem C2_stale_timer_hides_early :
    ¬ hasClass reopenedPage 1 "hidden"
      ∧ hasClass (closeMenu sampleEnv reopenedPage).page 2 "translate-x-full"
      ∧ hasClass (advance 100 (closeMenu sampleEnv reopenedPage).page) 1 "hidden"
      ∧ 100 < 300 := by
  refine ⟨?_, ?_, ?_, by decide⟩
  · rw [reopenedPage, openMenu_page sampleEnv _ 2 rfl, hasClass_classListRemove,
      hasClass_classListRemove]
    rintro ⟨⟨_, h⟩, _⟩
    exact h ⟨rfl, rfl⟩
  · simp [closeMenu_page sampleEnv _ 2 rfl, hasClass_setTimeout, hasClass_classListAdd]
  · rw [hasClass_advance]
    refine Or.inl ⟨rfl, ⟨100, .hideContainer 1⟩, ?_, by decide, rfl⟩
    rw [closeMenu_page sampleEnv _ 2 rfl, timers_setTimeout, timers_classListAdd,
      reopenedPage, openMenu_timers, advance_timers, closeMenu_page sampleEnv _ 2 rfl,
      timers_setTimeout, timers_classListAdd, openMenu_timers]
    decide

/-- C2, amended: when the panel exists, the container is shown and no pending
timer falls due in fewer than 300 time units, `closeMenu` completes normally,
the panel carries `translate-x-full` at once, the container does not carry
`hidden` at any time before 300 units have passed, and carries it from 300
units on. -/
theorem C2_closeMenu_hides_after_delay (env : Env) (s : Page) (panel : Handle)
    (hpanel : env.panel = some panel)
    (hvisible : ¬ hasClass s env.mobileMenu "hidden")
    (hfresh : ∀ t ∈ s.timers, 300 ≤ t.remaining) :
    (closeMenu env s).error = none
      ∧ hasClass (closeMenu env s).page panel "translate-x-full"
      ∧ (∀ n, n < 300 →
          ¬ hasClass (advance n (closeMenu env s).page) env.mobileMenu "hidden")
      ∧ (∀ n, 300 ≤ n →
          hasClass (advance n (closeMenu env s).page) env.mobileMenu "hidden") := by
  have hne : ("hidden" : String) ≠ "translate-x-full" := by decide
  refine ⟨?_, ?_, ?_, ?_⟩
  · simp [closeMenu, hpanel, Outcome.ok]
  · simp [closeMenu_page env s panel hpanel, hasClass_setTimeout, hasClass_classListAdd]
  · intro n hn
    rw [hasClass_advance, closeMenu_page env s panel hpanel, timers_setTimeout,
      timers_classListAdd, hasClass_setTimeout, hasClass_classListAdd]
    rintro (⟨_, t, ht, hlt, _⟩ | ⟨_, h⟩ | h)
    · rcases List.mem_append.mp ht with ht | ht
      · have := hfresh t ht
        omega
      · rw [List.mem_singleton] at ht
        subst ht
        simp only at hlt
        omega
    · exact hne h
    · exact hvisible h
  · intro n hn
    rw [hasClass_advance, closeMenu_page env s panel hpanel, timers_setTimeout,
      timers_classListAdd]
    refine Or.inl ⟨rfl, ⟨300, .hideContainer env.mobileMenu⟩, ?_, ?_, rfl⟩
    · simp
    · simp only
      omega

/-- C2 amended, on the sample page once opened. -/
theorem C2_closeMenu_hides_after_delay_witness :
    ¬ hasClass (advance 299
        (closeMenu sampleEnv (openMenu sampleEnv samplePage).page).page) 1 "hidden"
      ∧ hasClass (advance 300
        (closeMenu sampleEnv (openMenu sampleEnv samplePage).page).page) 1 "hidden" :=
  have h := C2_closeMenu_hides_after_delay sampleEnv (openMenu sampleEnv samplePage).page 2
    rfl (by decide) (by decide)
  ⟨h.2.2.1 299 (by decide), h.2.2.2 300 (by decide)⟩

/-! ## The guarded listeners -/

/-- C3: a click reaches the click listener of the container exactly when its
target is the container or a descendant of it; the listener calls `closeMenu`
when the target is the container itself, and does nothing when the target is a
descendant of the container, the panel found by `querySelector` in particular;
a call of `closeMenu` is never without effect, so the two cases differ. -/
theorem C3_containerClick_guard (env : Env) (e : Event) (s : Page) :
    (e.target = .element env.mobileMenu → containerClick env e s = closeMenu env s)
      ∧ (∀ t : Handle, isDescendant s.doc t env.mobileMenu = true →
          e.target = .element t → containerClick env e s = Outcome.ok s)
      ∧ (∀ p : Handle, querySelector s.doc env.mobileMenu (.tag "div") = some p →
          e.target = .element p → containerClick env e s = Outcome.ok s)
      ∧ closeMenu env s ≠ Outcome.ok s
      ∧ (∀ t : Handle, e.type = "click" → e.target = .element t →
          (⟨.element env.mobileMenu, "click", .containerClick env⟩ : Listener) ∈ s.listeners →
          ((⟨.element env.mobileMenu, "click", .containerClick env⟩ : Listener)
              ∈ listenersFor s e
            ↔ t = env.mobileMenu ∨ isDescendant s.doc t env.mobileMenu = true)) := by
  have hdesc : ∀ t : Handle, isDescendant s.doc t env.mobileMenu = true →
      e.target = .element t → containerClick env e s = Outcome.ok s := by
    intro t ht he
    have hne := isDescendant_ne _ _ _ ht
    simp [containerClick, he, hne]
  refine ⟨?_, hdesc, ?_, closeMenu_ne_ok env s, ?_⟩
  · intro he
    simp [containerClick, he]
  · intro p hp he
    exact hdesc p (querySelector_isDescendant _ _ _ _ hp) he
  · intro t hty htgt hl
    rw [mem_listenersFor, htgt, mem_propagationPath, hty]
    constructor
    · rintro ⟨_, _, h | h⟩
      · exact Or.inl h.symm
      · exact Or.inr h
    · rintro (h | h)
      · exact ⟨hl, rfl, Or.inl h.symm⟩
      · exact ⟨hl, rfl, Or.inr h⟩

/-- C3, on the sample page: a click on the container (element 1) closes, a
click on the panel (element 2) does not; the same through the dispatch of the
click on the loaded page. -/
theorem C3_containerClick_guard_witness :
    containerClick sampleEnv ⟨"click", .element 1, ""⟩ samplePage
        = closeMenu sampleEnv samplePage
      ∧ containerClick sampleEnv ⟨"click", .element 2, ""⟩ samplePage
        = Outcome.ok samplePage
      ∧ click 1 loadedPage = ((closeMenu sampleEnv loadedPage).page, [])
      ∧ click 2 loadedPage = (loadedPage, []) :=
  ⟨(C3_containerClick_guard sampleEnv ⟨"click", .element 1, ""⟩ samplePage).1 rfl,
   (C3_containerClick_guard sampleEnv ⟨"click", .element 2, ""⟩ samplePage).2.2.1 2
      (by decide) rfl,
   rfl, rfl⟩

/-- C4: the keydown listener of the document calls `closeMenu` whenever the key
is `Escape`, for every event target and every page state, and leaves the page
(class lists and pending timers included) as it is for every other key.  On a
wired page the same holds of the key press itself, wherever the focus is:
`Escape` does what `closeMenu` does and any other key does nothing. -/
theorem C4_onKeydown_guard (env : Env) (e : Event) (s : Page) :
    (e.key = "Escape" → onKeydown env e s = closeMenu env s)
      ∧ (e.key ≠ "Escape" →
          onKeydown env e s = Outcome.ok s
            ∧ (onKeydown env e s).page.classes = s.classes
            ∧ (onKeydown env e s).page.timers = s.timers)
      ∧ (∀ closeBtn focus : Handle, s.listeners = wired env closeBtn →
          keydown "Escape" focus s
              = ((closeMenu env s).page, (closeMenu env s).error.toList)
            ∧ ∀ key : String, key ≠ "Escape" → keydown key focus s = (s, [])) := by
  refine ⟨?_, ?_, ?_⟩
  · intro he
    simp [onKeydown, he]
  · intro he
    simp [onKeydown, he, Outcome.ok]
  · intro closeBtn focus hl
    constructor
    · rw [keydown_wired s env closeBtn hl]
      simp [onKeydown]
    · intro key hkey
      rw [keydown_wired s env closeBtn hl]
      simp [onKeydown, hkey, Outcome.ok]

/-- C4, on the sample page: `Escape` with the focus on the trigger closes, the
key `a` changes nothing; on the loaded page, `Escape` pressed with the focus on
the close button closes. -/
theorem C4_onKeydown_guard_witness :
    onKeydown sampleEnv ⟨"keydown", .element 0, "Escape"⟩ samplePage
        = closeMenu sampleEnv samplePage
      ∧ onKeydown sampleEnv ⟨"keydown", .element 0, "a"⟩ samplePage
        = Outcome.ok samplePage
      ∧ keydown "Escape" 3 loadedPage
        = ((closeMenu sampleEnv loadedPage).page, (closeMenu sampleEnv loadedPage).error.toList) :=
  ⟨(C4_onKeydown_guard sampleEnv ⟨"keydown", .element 0, "Escape"⟩ samplePage).1 rfl,
   ((C4_onKeydown_guard sampleEnv ⟨"keydown", .element 0, "a"⟩ samplePage).2.1
      (by decide)).1,
   ((C4_onKeydown_guard sampleEnv ⟨"keydown", .element 0, "a"⟩ loadedPage).2.2 3 3 rfl).1⟩

/-! ## Initialisation -/

/-- C5: when the trigger or the container is missing, the `DOMContentLoaded`
handler completes normally and leaves the page as it found it: no listener is
attached, no class list changes, no timer is scheduled. -/
theorem C5_init_skipped (s : Page)
    (h : getElementById s.doc "mobileMenuBtn" = none
      ∨ getElementById s.doc "mobileMenuPanel" = none) :
    onDOMContentLoaded s = Outcome.ok s
      ∧ (onDOMContentLoaded s).page.listeners = s.listeners
      ∧ (onDOMContentLoaded s).page.classes = s.classes
      ∧ (onDOMContentLoaded s).page.timers = s.timers
      ∧ (onDOMContentLoaded s).error = none := by
  have key : onDOMContentLoaded s = Outcome.ok s := by
    unfold onDOMContentLoaded
    rcases h with h | h
    · rw [h]
    · rw [h]
      cases getElementById s.doc "mobileMenuBtn" <;> rfl
  rw [key]
  exact ⟨rfl, rfl, rfl, rfl, rfl⟩

/-- C5, on a page that has the trigger but no container: the handler leaves
the page as it is, and loading the page leaves only the listener the script
itself attaches at top level. -/
theorem C5_init_skipped_witness :
    onDOMContentLoaded ⟨noContainerDoc, sampleClasses, [], []⟩
        = Outcome.ok ⟨noContainerDoc, sampleClasses, [], []⟩
      ∧ boot noContainerDoc sampleClasses
        = (⟨noContainerDoc, sampleClasses,
            [⟨.document, "DOMContentLoaded", .onDOMContentLoaded⟩], []⟩, []) :=
  ⟨(C5_init_skipped ⟨noContainerDoc, sampleClasses, [], []⟩ (Or.inr (by decide))).1, rfl⟩

/-- C6: on a page with trigger, container and panel but without the close
control, the `DOMContentLoaded` handler attaches the click listener of the
trigger and then throws a `TypeError`, which loading the page reports.  On a
page whose container holds the close control but no `div`, all four listeners
are attached, and `openMenu` then throws after showing the container. -/
theorem C6_init_throws_without_close_control :
    (onDOMContentLoaded ⟨noCloseDoc, sampleClasses, [], []⟩).error = some .typeError
      ∧ (onDOMContentLoaded ⟨noCloseDoc, sampleClasses, [], []⟩).page.listeners
        = [⟨.element 0, "click", .openMenu ⟨0, 1, some 2, none⟩⟩]
      ∧ (boot noCloseDoc sampleClasses).2 = [.typeError]
      ∧ boot noPanelDoc sampleClasses
        = (⟨noPanelDoc, sampleClasses, wired noPanelEnv 2, []⟩, [])
      ∧ (openMenu noPanelEnv (boot noPanelDoc sampleClasses).1).error = some .typeError
      ∧ ¬ hasClass (openMenu noPanelEnv (boot noPanelDoc sampleClasses).1).page 1 "hidden" := by
  refine ⟨rfl, rfl, rfl, rfl, rfl, ?_⟩
  decide

/-- C7: when trigger, container and close control are found, the
`DOMContentLoaded` handler completes normally and its whole effect is to append
four listeners: click on the trigger bound to `openMenu`, click on the close
control bound to `closeMenu`, click on the container bound to the
target-guarded listener, keydown on the document bound to the key-guarded
listener; a call of any of the four does nothing, or what `openMenu` does, or
what `closeMenu` does. -/
theorem C7_init_wires_four (s : Page) (menuBtn mobileMenu closeBtn : Handle)
    (hbtn : getElementById s.doc "mobileMenuBtn" = some menuBtn)
    (hmenu : getElementById s.doc "mobileMenuPanel" = some mobileMenu)
    (hclose : querySelector s.doc mobileMenu (.id "closeMobileMenu") = some closeBtn)
    (env : Env)
    (henv : env = ⟨menuBtn, mobileMenu, querySelector s.doc mobileMenu (.tag "div"),
      some closeBtn⟩) :
    onDOMContentLoaded s =
        Outcome.ok { s with listeners := s.listeners ++
          [⟨.element menuBtn, "click", .openMenu env⟩,
           ⟨.element closeBtn, "click", .closeMenu env⟩,
           ⟨.element mobileMenu, "click", .containerClick env⟩,
           ⟨.document, "keydown", .onKeydown env⟩] }
      ∧ ∀ h ∈ [Closure.openMenu env, .closeMenu env, .containerClick env, .onKeydown env],
          ∀ (e : Event) (p : Page),
            h.call e p = Outcome.ok p ∨ h.call e p = openMenu env p
              ∨ h.call e p = closeMenu env p := by
  subst henv
  constructor
  · unfold onDOMContentLoaded
    rw [hbtn, hmenu]
    simp [hclose, addEventListener]
  · intro h hh e p
    simp only [List.mem_cons, List.mem_singleton, List.not_mem_nil, or_false] at hh
    rcases hh with rfl | rfl | rfl | rfl
    · exact Or.inr (Or.inl rfl)
    · exact Or.inr (Or.inr rfl)
    · simp only [Closure.call, containerClick]
      split
      · exact Or.inr (Or.inr rfl)
      · exact Or.inl rfl
    · simp only [Closure.call, onKeydown]
      split
      · exact Or.inr (Or.inr rfl)
      · exact Or.inl rfl

/-- C7, on the sample page: the four listeners, in order of attachment; the
loaded page has these after the one the script attaches at top level, and
nothing else has changed. -/
theorem C7_init_wires_four_witness :
    (onDOMContentLoaded samplePage).page.listeners =
        [⟨.element 0, "click", .openMenu sampleEnv⟩,
         ⟨.element 3, "click", .closeMenu sampleEnv⟩,
         ⟨.element 1, "click", .containerClick sampleEnv⟩,
         ⟨.document, "keydown", .onKeydown sampleEnv⟩]
      ∧ (onDOMContentLoaded samplePage).error = none
      ∧ boot sampleDoc sampleClasses
        = (⟨sampleDoc, sampleClasses, wired sampleEnv 3, []⟩, []) :=
  have h := (C7_init_wires_four samplePage 0 1 3 (by decide) (by decide) (by decide)
    sampleEnv (by decide)).1
  ⟨by rw [h]; rfl, by rw [h]; rfl, rfl⟩

/-! ## Overlapping open and close -/

/-- C8: `openMenu` never removes a pending timer, and no function of the script
does: a call only ever appends to the pending timers; so when `closeMenu` is
followed, fewer than 300 time units later, by `openMenu`, the timer of the
close is still pending after the open, the container is shown at that moment,
and once the 300 units are over the container carries `hidden` again while the
panel does not carry `translate-x-full`. -/
theorem C8_stale_timer_rehides (env : Env) (s : Page) (panel : Handle)
    (hpanel : env.panel = some panel) (n : Nat) (hn : n < 300) :
    (∀ (env' : Env) (s' : Page), (openMenu env' s').page.timers = s'.timers)
      ∧ (∀ (h : Closure) (e : Event) (s' : Page),
          ∃ extra, (h.call e s').page.timers = s'.timers ++ extra)
      ∧ ⟨300 - n, .hideContainer env.mobileMenu⟩ ∈
          (openMenu env (advance n (closeMenu env s).page)).page.timers
      ∧ ¬ hasClass (openMenu env (advance n (closeMenu env s).page)).page
          env.mobileMenu "hidden"
      ∧ hasClass (advance (300 - n)
          (openMenu env (advance n (closeMenu env s).page)).page) env.mobileMenu "hidden"
      ∧ ¬ hasClass (advance (300 - n)
          (openMenu env (advance n (closeMenu env s).page)).page) panel "translate-x-full" := by
  have hne : ("translate-x-full" : String) ≠ "hidden" := by decide
  have hmem : (⟨300 - n, .hideContainer env.mobileMenu⟩ : Timer) ∈
      (openMenu env (advance n (closeMenu env s).page)).page.timers := by
    rw [openMenu_timers, advance_timers, closeMenu_page env s panel hpanel,
      timers_setTimeout, timers_classListAdd, List.mem_map]
    refine ⟨⟨300, .hideContainer env.mobileMenu⟩, ?_, rfl⟩
    rw [List.mem_filter]
    refine ⟨by simp, ?_⟩
    simp only [decide_eq_true_eq]
    omega
  refine ⟨openMenu_timers, call_timers, hmem, ?_, ?_, ?_⟩
  · rw [openMenu_page env _ panel hpanel, hasClass_classListRemove, hasClass_classListRemove]
    rintro ⟨⟨_, h⟩, _⟩
    exact h ⟨rfl, rfl⟩
  · rw [hasClass_advance]
    refine Or.inl ⟨rfl, _, hmem, ?_, rfl⟩
    simp only
    omega
  · rw [hasClass_advance, openMenu_page env _ panel hpanel, hasClass_classListRemove]
    rintro (⟨h, _⟩ | ⟨_, h⟩)
    · exact hne h
    · exact h ⟨rfl, rfl⟩

/-- C8, on the sample page: close, open 100 time units later, and 200 units
after that the container is hidden although the menu was opened last. -/
theorem C8_stale_timer_rehides_witness :
    hasClass (advance 200
        (openMenu sampleEnv (advance 100 (closeMenu sampleEnv samplePage).page)).page)
        1 "hidden"
      ∧ ¬ hasClass (advance 200
        (openMenu sampleEnv (advance 100 (closeMenu sampleEnv samplePage).page)).page)
        2 "translate-x-full" :=
  have h := C8_stale_timer_rehides sampleEnv samplePage 2 rfl 100 (by decide)
  ⟨h.2.2.2.2.1, h.2.2.2.2.2⟩

/-! ## Round trips -/

/-- C9: from a state with no pending timer, `closeMenu` followed by 300 time
units gives the closed state: container `hidden`, panel `translate-x-full`, no
pending timer.  From the closed state, open then close then 300 time units
gives back the same document, listeners and classes on every element, with no
pending timer; from the open state, close then 300 time units then open does
the same. -/
theorem C9_close_cycle (env : Env) (s : Page) (panel : Handle)
    (hpanel : env.panel = some panel) (hidle : s.timers = []) :
    (hasClass (advance 300 (closeMenu env s).page) env.mobileMenu "hidden"
        ∧ hasClass (advance 300 (closeMenu env s).page) panel "translate-x-full"
        ∧ (advance 300 (closeMenu env s).page).timers = [])
      ∧ (hasClass s env.mobileMenu "hidden" → hasClass s panel "translate-x-full" →
          (advance 300 (closeMenu env (openMenu env s).page).page).timers = []
            ∧ (advance 300 (closeMenu env (openMenu env s).page).page).doc = s.doc
            ∧ (advance 300 (closeMenu env (openMenu env s).page).page).listeners = s.listeners
            ∧ ∀ k x, hasClass (advance 300 (closeMenu env (openMenu env s).page).page) k x
                ↔ hasClass s k x)
      ∧ (¬ hasClass s env.mobileMenu "hidden" → ¬ hasClass s panel "translate-x-full" →
          (openMenu env (advance 300 (closeMenu env s).page)).page.timers = []
            ∧ (openMenu env (advance 300 (closeMenu env s).page)).page.doc = s.doc
            ∧ (openMenu env (advance 300 (closeMenu env s).page)).page.listeners = s.listeners
            ∧ ∀ k x, hasClass (openMenu env (advance 300 (closeMenu env s).page)).page k x
                ↔ hasClass s k x) := by
  have hne : ("hidden" : String) ≠ "translate-x-full" := by decide
  -- what 300 time units after a close look like, from any idle state
  have hT : ∀ s' : Page, s'.timers = [] →
      (advance 300 (closeMenu env s').page).timers = [] := by
    intro s' h'
    rw [advance_timers, closeMenu_page env s' panel hpanel, timers_setTimeout,
      timers_classListAdd, h']
    rfl
  have hC : ∀ s' : Page, s'.timers = [] → ∀ k x,
      hasClass (advance 300 (closeMenu env s').page) k x ↔
        (x = "hidden" ∧ k = env.mobileMenu) ∨ (k = panel ∧ x = "translate-x-full")
          ∨ hasClass s' k x := by
    intro s' h' k x
    rw [hasClass_advance, closeMenu_page env s' panel hpanel, timers_setTimeout,
      timers_classListAdd, h', hasClass_setTimeout, hasClass_classListAdd]
    simp only [List.nil_append, List.mem_singleton, exists_eq_left, Callback.hideContainer.injEq]
    constructor
    · rintro (⟨hx, _, hk⟩ | h)
      · exact Or.inl ⟨hx, hk.symm⟩
      · exact Or.inr h
    · rintro (⟨hx, hk⟩ | h)
      · exact Or.inl ⟨hx, by decide, hk.symm⟩
      · exact Or.inr h
  have hF : ∀ s' : Page, (advance 300 (closeMenu env s').page).doc = s'.doc
      ∧ (advance 300 (closeMenu env s').page).listeners = s'.listeners := by
    intro s'
    have := advance_frame 300 (closeMenu env s').page
    rw [closeMenu_page env s' panel hpanel] at this ⊢
    exact this
  have hO : ∀ s' : Page, ∀ k x, hasClass (openMenu env s').page k x ↔
      hasClass s' k x ∧ ¬ (k = env.mobileMenu ∧ x = "hidden")
        ∧ ¬ (k = panel ∧ x = "translate-x-full") := by
    intro s' k x
    rw [openMenu_page env s' panel hpanel, hasClass_classListRemove, hasClass_classListRemove,
      and_assoc]
  have hOF : ∀ s' : Page, (openMenu env s').page.doc = s'.doc
      ∧ (openMenu env s').page.listeners = s'.listeners := by
    intro s'
    rw [openMenu_page env s' panel hpanel]
    exact ⟨rfl, rfl⟩
  refine ⟨⟨?_, ?_, hT s hidle⟩, ?_, ?_⟩
  · exact (hC s hidle _ _).mpr (Or.inl ⟨rfl, rfl⟩)
  · exact (hC s hidle _ _).mpr (Or.inr (Or.inl ⟨rfl, rfl⟩))
  · intro hh ht
    have hidle' : (openMenu env s).page.timers = [] := by rw [openMenu_timers, hidle]
    refine ⟨hT _ hidle', (hF _).1.trans (hOF s).1, (hF _).2.trans (hOF s).2, ?_⟩
    intro k x
    rw [hC _ hidle', hO]
    constructor
    · rintro (⟨hx, hk⟩ | ⟨hk, hx⟩ | h)
      · subst hx; subst hk; exact hh
      · subst hx; subst hk; exact ht
      · exact h.1
    · intro h
      by_cases h1 : k = env.mobileMenu ∧ x = "hidden"
      · exact Or.inl ⟨h1.2, h1.1⟩
      · by_cases h2 : k = panel ∧ x = "translate-x-full"
        · exact Or.inr (Or.inl h2)
        · exact Or.inr (Or.inr ⟨h, h1, h2⟩)
  · intro hh ht
    refine ⟨by rw [openMenu_timers]; exact hT s hidle, (hOF _).1.trans (hF s).1,
      (hOF _).2.trans (hF s).2, ?_⟩
    intro k x
    rw [hO, hC s hidle]
    constructor
    · rintro ⟨(⟨hx, hk⟩ | ⟨hk, hx⟩ | h), h1, h2⟩
      · exact absurd ⟨hk, hx⟩ h1
      · exact absurd ⟨hk, hx⟩ h2
      · exact h
    · intro h
      refine ⟨Or.inr (Or.inr h), ?_, ?_⟩
      · rintro ⟨hk, hx⟩
        subst hx; subst hk; exact hh h
      · rintro ⟨hk, hx⟩
        subst hx; subst hk; exact ht h

/-- C9, on the sample page, which is served closed and idle: open, close and
300 time units bring every class back. -/
theorem C9_close_cycle_witness :
    (advance 300 (closeMenu sampleEnv (openMenu sampleEnv samplePage).page).page).timers = []
      ∧ ∀ k x,
          hasClass (advance 300
            (closeMenu sampleEnv (openMenu sampleEnv samplePage).page).page) k x
            ↔ hasClass samplePage k x :=
  have h := (C9_close_cycle sampleEnv samplePage 2 rfl rfl).2.1 (by decide) (by decide)
  ⟨h.1, h.2.2.2⟩

/-! ## Frame -/

/-- C10: with the panel present, `openMenu` touches only `hidden` on the
container and `translate-x-full` on the panel and schedules no timer;
`closeMenu` touches only `translate-x-full` on the panel, leaves `hidden` on
the container as it is, and appends exactly one timer, of delay 300; the timer
callback touches only `hidden` on the container and leaves `translate-x-full`
on the panel as it is.  Document and listeners are never changed. -/
theorem C10_frame (env : Env) (s : Page) (panel : Handle)
    (hpanel : env.panel = some panel) :
    ((openMenu env s).page.doc = s.doc
        ∧ (openMenu env s).page.listeners = s.listeners
        ∧ (openMenu env s).page.timers = s.timers
        ∧ (∀ k, k ≠ env.mobileMenu → k ≠ panel →
            (openMenu env s).page.classes k = s.classes k)
        ∧ (∀ k x, ¬ (k = env.mobileMenu ∧ x = "hidden") →
            ¬ (k = panel ∧ x = "translate-x-full") →
            (hasClass (openMenu env s).page k x ↔ hasClass s k x)))
      ∧ ((closeMenu env s).page.doc = s.doc
        ∧ (closeMenu env s).page.listeners = s.listeners
        ∧ (closeMenu env s).page.timers
            = s.timers ++ [⟨300, .hideContainer env.mobileMenu⟩]
        ∧ (hasClass (closeMenu env s).page env.mobileMenu "hidden"
            ↔ hasClass s env.mobileMenu "hidden")
        ∧ (∀ k, k ≠ panel → (closeMenu env s).page.classes k = s.classes k)
        ∧ (∀ k x, ¬ (k = panel ∧ x = "translate-x-full") →
            (hasClass (closeMenu env s).page k x ↔ hasClass s k x)))
      ∧ (((Callback.hideContainer env.mobileMenu).run s).doc = s.doc
        ∧ ((Callback.hideContainer env.mobileMenu).run s).listeners = s.listeners
        ∧ ((Callback.hideContainer env.mobileMenu).run s).timers = s.timers
        ∧ (hasClass ((Callback.hideContainer env.mobileMenu).run s) panel "translate-x-full"
            ↔ hasClass s panel "translate-x-full")
        ∧ (∀ k, k ≠ env.mobileMenu →
            ((Callback.hideContainer env.mobileMenu).run s).classes k = s.classes k)
        ∧ (∀ k x, ¬ (k = env.mobileMenu ∧ x = "hidden") →
            (hasClass ((Callback.hideContainer env.mobileMenu).run s) k x
              ↔ hasClass s k x))) := by
  have hne : ("hidden" : String) ≠ "translate-x-full" := by decide
  refine ⟨?_, ?_, ?_⟩
  · rw [openMenu_page env s panel hpanel]
    refine ⟨rfl, rfl, rfl, ?_, ?_⟩
    · intro k h1 h2
      simp [classListRemove, h1, h2]
    · intro k x h1 h2
      rw [hasClass_classListRemove, hasClass_classListRemove]
      exact ⟨fun h => h.1.1, fun h => ⟨⟨h, h1⟩, h2⟩⟩
  · rw [closeMenu_page env s panel hpanel]
    refine ⟨rfl, rfl, rfl, ?_, ?_, ?_⟩
    · rw [hasClass_setTimeout, hasClass_classListAdd]
      exact ⟨fun h => h.elim (fun h' => absurd h'.2 hne) id, Or.inr⟩
    · intro k h1
      simp [setTimeout, classListAdd, h1]
    · intro k x h1
      rw [hasClass_setTimeout, hasClass_classListAdd]
      exact ⟨fun h => h.elim (fun h' => absurd h' h1) id, Or.inr⟩
  · refine ⟨rfl, rfl, rfl, ?_, ?_, ?_⟩
    · rw [hasClass_run]
      exact ⟨fun h => h.elim (fun h' => absurd h'.1.symm hne) id, Or.inr⟩
    · intro k h1
      simp [Callback.run, classListAdd, h1]
    · intro k x h1
      rw [hasClass_run]
      refine ⟨fun h => h.elim (fun h' => ?_) id, Or.inr⟩
      have hk : env.mobileMenu = k := Callback.hideContainer.inj h'.2
      exact absurd ⟨hk.symm, h'.1⟩ h1

/-- C10, on the sample page: `closeMenu` appends one timer of delay 300 and
`openMenu` none. -/
theorem C10_frame_witness :
    (closeMenu sampleEnv samplePage).page.timers = [⟨300, .hideContainer 1⟩]
      ∧ (openMenu sampleEnv samplePage).page.timers = [] :=
  have h := C10_frame sampleEnv samplePage 2 rfl
  ⟨h.2.1.2.2.1, h.1.2.2.1⟩

end MobileMenu
